import Mathlib

/-!
Verification of the multi-source profile-aggregation core of the repository
(`backend/platform_router.py`, `backend/services.py`, `backend/profiler.py`,
`backend/main.py`) against its natural-language specification.

Python strings are modelled as `List Char`; Python `str.strip()` is modelled
over the ASCII whitespace set; Python regexes from `PLATFORM_PATTERNS` are
modelled as deterministic parsers proved equivalent to the anchored,
case-insensitive patterns of the source on the modelled character space.
-/

namespace Koyak

abbrev Str := List Char

/-- ASCII lowercasing, the fragment of Python `str.lower()` / `re.IGNORECASE`
exercised by the ASCII-only patterns of `platform_router.py`. -/
def low (c : Char) : Char :=
  match c with
  | 'A' => 'a' | 'B' => 'b' | 'C' => 'c' | 'D' => 'd' | 'E' => 'e' | 'F' => 'f'
  | 'G' => 'g' | 'H' => 'h' | 'I' => 'i' | 'J' => 'j' | 'K' => 'k' | 'L' => 'l'
  | 'M' => 'm' | 'N' => 'n' | 'O' => 'o' | 'P' => 'p' | 'Q' => 'q' | 'R' => 'r'
  | 'S' => 's' | 'T' => 't' | 'U' => 'u' | 'V' => 'v' | 'W' => 'w' | 'X' => 'x'
  | 'Y' => 'y' | 'Z' => 'z'
  | c => c

def lowers (s : Str) : Str := s.map low

/-- Python `str.strip()` whitespace set (ASCII fragment). -/
def isWs (c : Char) : Bool :=
  c = ' ' || c = '\t' || c = '\n' || c = '\x0d' || c = '\x0b' || c = '\x0c'

/-- `url.strip()` from `detect_platform`. -/
def pyStrip (s : Str) : Str :=
  ((s.dropWhile isWs).reverse.dropWhile isWs).reverse

/-- Case-insensitive literal-prefix matcher: the model of a literal regex
fragment under `re.IGNORECASE` (`lit` is given in lowercase). -/
def stripPrefixCI (lit : Str) (s : Str) : Option Str :=
  if lowers (s.take lit.length) = lit then some (s.drop lit.length) else none

def litHttps : Str := "https://".toList
def litHttp : Str := "http://".toList
def litWww : Str := "www.".toList

/-- `(?:https?://)?` — the optional scheme. Both literals start with a
character no domain of `PLATFORM_PATTERNS` starts with, so committing to the
longest matching literal is equivalent to the regex's backtracking. -/
def stripScheme (s : Str) : Str :=
  match stripPrefixCI litHttps s with
  | some r => r
  | none =>
    match stripPrefixCI litHttp s with
    | some r => r
    | none => s

/-- `(?:www\.)?` — same commitment argument as for the scheme. -/
def stripWww (s : Str) : Str :=
  match stripPrefixCI litWww s with
  | some r => r
  | none => s

/-- `.` of the pattern (no DOTALL): any character except a newline. -/
def noNL (s : Str) : Bool := s.all (fun c => ¬ c = '\n')

/-- `.*$` : a run of non-newline characters, where `$` also matches just
before a final newline. -/
def dotStarDollar (s : Str) : Bool :=
  noNL s ||
    (match s.getLast? with
     | some '\n' => noNL s.dropLast
     | _ => false)

/-- `(?:/.*)?$` — what may follow the captured username. -/
def tailMatch (s : Str) : Bool :=
  match s with
  | [] => true
  | ['\n'] => true
  | '/' :: r => dotStarDollar r
  | _ => false

/-- `[a-zA-Z0-9_]` (twitter username characters). -/
def twCls (c : Char) : Bool :=
  ('a' ≤ c && c ≤ 'z') || ('A' ≤ c && c ≤ 'Z') || ('0' ≤ c && c ≤ '9') || c = '_'

/-- `[a-zA-Z0-9_.]` (instagram). -/
def igCls (c : Char) : Bool := twCls c || c = '.'

/-- `[a-zA-Z0-9_-]` (linkedin). -/
def liCls (c : Char) : Bool := twCls c || c = '-'

/-- `[a-zA-Z0-9.]` (facebook path usernames — note: no underscore). -/
def fbCls (c : Char) : Bool :=
  ('a' ≤ c && c ≤ 'z') || ('A' ≤ c && c ≤ 'Z') || ('0' ≤ c && c ≤ '9') || c = '.'

def isDigitCh (c : Char) : Bool := '0' ≤ c && c ≤ '9'

/-- Greedy capture `(cls+)` followed by `(?:/.*)?$`. The character classes
exclude `/` and the end marker, so maximal munch is equivalent to the
regex's backtracking. -/
def matchUser (cls : Char → Bool) (s : Str) : Option Str :=
  let u := s.takeWhile cls
  if u = [] then none
  else if tailMatch (s.drop u.length) then some u else none

def litTwitter : Str := "twitter.com/".toList
def litX : Str := "x.com/".toList
def litInstagram : Str := "instagram.com/".toList
def litLinkedin : Str := "linkedin.com/in/".toList
def litFacebook : Str := "facebook.com/".toList
def litProfilePhp : Str := "profile.php?id=".toList

/-- The twitter pattern of `PLATFORM_PATTERNS` applied to a stripped URL. -/
def twitterMatch (s : Str) : Option Str :=
  let s2 := stripWww (stripScheme s)
  match stripPrefixCI litTwitter s2 with
  | some r => matchUser twCls r
  | none =>
    match stripPrefixCI litX s2 with
    | some r => matchUser twCls r
    | none => none

def instagramMatch (s : Str) : Option Str :=
  let s2 := stripWww (stripScheme s)
  match stripPrefixCI litInstagram s2 with
  | some r => matchUser igCls r
  | none => none

def linkedinMatch (s : Str) : Option Str :=
  let s2 := stripWww (stripScheme s)
  match stripPrefixCI litLinkedin s2 with
  | some r => matchUser liCls r
  | none => none

/-- The facebook pattern: alternation of the `profile.php?id=(\d+)` shape and
the plain username shape, tried in that order like the regex engine does. -/
def facebookMatch (s : Str) : Option Str :=
  let s2 := stripWww (stripScheme s)
  match stripPrefixCI litFacebook s2 with
  | some r =>
    (match stripPrefixCI litProfilePhp r with
     | some r2 => matchUser isDigitCh r2
     | none => none).orElse (fun _ => matchUser fbCls r)
  | none => none

inductive Platform where
  | twitter | instagram | linkedin | facebook | unknown
deriving DecidableEq

structure PlatformInfo where
  platform : Platform
  username : Str
  original_url : Str
deriving DecidableEq

/-- `detect_platform` from `platform_router.py`: strip, then try the patterns
in the (insertion-ordered) dict order twitter, instagram, linkedin,
facebook; on no match return the `unknown` info with empty username. -/
def detect_platform (url : Str) : PlatformInfo :=
  let s := pyStrip url
  match twitterMatch s with
  | some u => ⟨.twitter, u, s⟩
  | none =>
    match instagramMatch s with
    | some u => ⟨.instagram, u, s⟩
    | none =>
      match linkedinMatch s with
      | some u => ⟨.linkedin, u, s⟩
      | none =>
        match facebookMatch s with
        | some u => ⟨.facebook, u, s⟩
        | none => ⟨.unknown, [], s⟩

/-- `route_urls`, viewed as the bucket map it builds: the bucket of platform
`p` holds, in input order, the infos of the inputs detected as `p`. -/
def route_urls (urls : List Str) (p : Platform) : List PlatformInfo :=
  (urls.map detect_platform).filter (fun i => i.platform = p)

/-! ## Python dict model (insertion-ordered association list) -/

/-- Lookup in a Python dict modelled as an association list. -/
def dlookup {α : Type} : List (Str × α) → Str → Option α
  | [], _ => none
  | p :: t, q => if p.1 = q then some p.2 else dlookup t q

/-- `d[k] = v` on a Python dict: replace in place if the key exists,
otherwise append (insertion order). -/
def dinsert {α : Type} (m : List (Str × α)) (k : Str) (v : α) : List (Str × α) :=
  if (dlookup m k).isSome then
    m.map (fun p => if p.1 = k then (k, v) else p)
  else m ++ [(k, v)]

/-! ## Raw payload models

Raw upstream dicts are modelled by the fields the normalizers and routers
access; a missing key is `none`. Python dict truthiness is modelled as
"some modelled field is present". -/

structure TwItem where
  name : Option Str := none
  screen_name : Option Str := none
  description : Option Str := none
  location : Option Str := none
  created_at : Option Str := none
  followers_count : Option Nat := none
  friends_count : Option Nat := none
  statuses_count : Option Nat := none
  favourites_count : Option Nat := none
  verified : Option Bool := none
  text : Option Str := none
  full_text : Option Str := none
  fullText : Option Str := none
  content : Option Str := none
  likeCount : Option Nat := none
deriving DecidableEq

def TwItem.truthy (p : TwItem) : Bool :=
  p.name.isSome || p.screen_name.isSome || p.description.isSome ||
  p.location.isSome || p.created_at.isSome || p.followers_count.isSome ||
  p.friends_count.isSome || p.statuses_count.isSome ||
  p.favourites_count.isSome || p.verified.isSome || p.text.isSome ||
  p.full_text.isSome || p.fullText.isSome || p.content.isSome ||
  p.likeCount.isSome

/-- The empty dict `{}` returned by the error paths of `get_user_profile`. -/
def emptyTw : TwItem := {}

structure IgPost where
  caption : Option Str := none
  /-- collapses `post["edge_media_to_caption"]["edges"][0]["node"]["text"]`. -/
  nested_caption : Option Str := none
deriving DecidableEq

structure IgData where
  username : Option Str := none
  fullName : Option Str := none
  full_name : Option Str := none
  biography : Option Str := none
  followersCount : Option Nat := none
  /-- collapses `raw["edge_followed_by"]["count"]`. -/
  edge_followed_by_count : Option Nat := none
  posts : Option (List IgPost) := none
  latestPosts : Option (List IgPost) := none
deriving DecidableEq

def IgData.truthy (d : IgData) : Bool :=
  d.username.isSome || d.fullName.isSome || d.full_name.isSome ||
  d.biography.isSome || d.followersCount.isSome ||
  d.edge_followed_by_count.isSome || d.posts.isSome || d.latestPosts.isSome

structure LiPosition where
  title : Option Str := none
  companyName : Option Str := none
  company : Option Str := none
  organizationName : Option Str := none
  description : Option Str := none
deriving DecidableEq

structure LiEducation where
  schoolName : Option Str := none
  school : Option Str := none
  degreeName : Option Str := none
  degree : Option Str := none
  fieldOfStudy : Option Str := none
deriving DecidableEq

structure LiCert where
  name : Option Str := none
deriving DecidableEq

structure LiPost where
  text : Option Str := none
  commentary : Option Str := none
  textContent : Option Str := none
  numLikes : Option Nat := none
  likesCount : Option Nat := none
  numComments : Option Nat := none
  commentsCount : Option Nat := none
deriving DecidableEq

structure LiData where
  firstName : Option Str := none
  lastName : Option Str := none
  headline : Option Str := none
  locationName : Option Str := none
  location : Option Str := none
  geoLocationName : Option Str := none
  summary : Option Str := none
  about : Option Str := none
  positions : Option (List LiPosition) := none
  experience : Option (List LiPosition) := none
  workExperience : Option (List LiPosition) := none
  educations : Option (List LiEducation) := none
  education : Option (List LiEducation) := none
  certifications : Option (List LiCert) := none
  posts : Option (List LiPost) := none
deriving DecidableEq

def LiData.truthy (d : LiData) : Bool :=
  d.firstName.isSome || d.lastName.isSome || d.headline.isSome ||
  d.locationName.isSome || d.location.isSome || d.geoLocationName.isSome ||
  d.summary.isSome || d.about.isSome || d.positions.isSome ||
  d.experience.isSome || d.workExperience.isSome || d.educations.isSome ||
  d.education.isSome || d.certifications.isSome || d.posts.isSome

structure FbPost where
  text : Option Str := none
  message : Option Str := none
  postText : Option Str := none
  likes : Option Nat := none
  likesCount : Option Nat := none
  shares : Option Nat := none
  sharesCount : Option Nat := none
  comments : Option Nat := none
  commentsCount : Option Nat := none
deriving DecidableEq

structure FbData where
  name : Option Str := none
  title : Option Str := none
  about : Option Str := none
  description : Option Str := none
  likes : Option Nat := none
  likesCount : Option Nat := none
  followers : Option Nat := none
  followersCount : Option Nat := none
  website : Option Str := none
  category : Option Str := none
  posts : Option (List FbPost) := none
deriving DecidableEq

def FbData.truthy (d : FbData) : Bool :=
  d.name.isSome || d.title.isSome || d.about.isSome || d.description.isSome ||
  d.likes.isSome || d.likesCount.isSome || d.followers.isSome ||
  d.followersCount.isSome || d.website.isSome || d.category.isSome ||
  d.posts.isSome

/-! ## `services.py`: Twitter adapter (SocialData) and batch scrapers -/

def tw (s : Str) (n : Nat) : TwItem := { text := some s, likeCount := some n }

/-- `FALLBACK_DATA["elonmusk"]["data"]`. -/
def elonTweets : List TwItem :=
  [tw ("The algorithm is the problem. We're fixing it.".toList) 50000,
   tw ("Mars is looking good. Starship test soon. Humanity must become multiplanetary.".toList) 180000,
   tw ("Population collapse is the real crisis. Nobody talks about it.".toList) 130000,
   tw ("The woke mind virus must be stopped or nothing else matters".toList) 245000,
   tw ("Dogecoin to the moon! 🚀 The people's crypto".toList) 500000,
   tw ("Tesla FSD is improving exponentially. Soon will be 10x safer than human drivers".toList) 95000,
   tw ("I didn't buy Twitter to make money. I did it to help humanity.".toList) 320000,
   tw ("Sleep is overrated. I work 120 hours a week. That's what it takes.".toList) 88000,
   tw ("My ex won't let me see the kids as much as I want. Very sad.".toList) 150000,
   tw ("AI will be smarter than any human by 2025. We need to be careful.".toList) 200000,
   tw ("Just had an amazing conversation with my son X Æ A-12. He's so smart.".toList) 175000,
   tw ("Mainstream media is dying. Citizen journalism is the future.".toList) 110000,
   tw ("I'm not saying aliens exist, but... 👽".toList) 400000,
   tw ("Gonna put a Cybertruck on Mars. Why not?".toList) 250000,
   tw ("My companies have created more jobs than any politician. Facts.".toList) 95000]

/-- `FALLBACK_DATA["finkd"]["data"]`. -/
def finkdTweets : List TwItem :=
  [tw ("Just finished a great sparring session. Got submitted twice but learned a lot. 🥋".toList) 250000,
   tw ("Meta AI is going to change everything. We're building the future of human connection.".toList) 180000,
   tw ("Smoking some Sweet Baby Ray's brisket this weekend. The secret is low and slow. 🍖".toList) 320000,
   tw ("The Metaverse isn't a fad. It's the next chapter of the internet. Believe.".toList) 95000,
   tw ("Training for my next MMA fight. Cardio is brutal but worth it. No excuses.".toList) 145000,
   tw ("Privacy is important. That's why we're investing billions in encryption.".toList) 88000,
   tw ("Threads just hit 200M users. Grateful for the support. LFG 🚀".toList) 400000,
   tw ("Congress doesn't understand technology. But we're trying to educate them.".toList) 220000,
   tw ("Just sparred with a professional UFC fighter. Survived 3 rounds. Small wins. �".toList) 350000,
   tw ("Priscilla and I celebrating 10 years. She makes me a better person every day. ❤️".toList) 500000,
   tw ("VR is the future of work. Imagine meetings in the Metaverse instead of Zoom.".toList) 120000,
   tw ("Kids asked why I wear the same gray t-shirt every day. Less decisions = more focus.".toList) 280000,
   tw ("Surfing in Hawaii with the hydrofoil. Fell about 50 times before getting it right. 🏄".toList) 195000,
   tw ("Just finished reading 25 books this year. Knowledge is power. 📚".toList) 110000,
   tw ("Building AI that works for everyone. Not just the privileged few.".toList) 175000]

/-- The twitter-platform rows of `FALLBACK_DATA`, keyed by lowercased
username (`"zuck"` is an instagram-platform row, so it is absent here and
the twitter scraper falls through to the API path for it). -/
def fallbackTw (u : Str) : Option (List TwItem) :=
  if u = "elonmusk".toList then some elonTweets
  else if u = "finkd".toList then some finkdTweets
  else none

/-- `FALLBACK_DATA["zuck"]["data"]` (instagram platform). -/
def zuckIg : IgData :=
  { fullName := some ("Mark Zuckerberg".toList),
    biography := some ("Building the future. Smoking meats. Jiu Jitsu.".toList),
    followersCount := some 14000000,
    posts := some
      [{ caption := some ("Great session training with the team today. The journey continues. 🥋".toList) },
       { caption := some ("New Meta AI features dropping soon. Excited to share what we've been building.".toList) },
       { caption := some ("Family time is the best time. Grateful for every moment with Priscilla and the kids.".toList) }] }

def fallbackIg (u : Str) : Option IgData :=
  if u = "zuck".toList then some zuckIg else none

/-- The outcome of the one `requests.get` in
`SocialDataService.get_user_profile`: the five branches of its error
handling plus the success case (`200` with parseable JSON body `p`). -/
inductive TwUpstream where
  | notFound
  | insufficientCredits
  | httpError (code : Nat)
  | requestErr
  | badJson
  | ok (p : TwItem)
deriving DecidableEq

def TwUpstream.isErr : TwUpstream → Bool
  | .ok _ => false
  | _ => true

/-- `SocialDataService.get_user_profile`: every non-success branch returns
the empty dict `{}`; nothing escapes (all exceptions are caught). -/
def get_user_profile (hasKey : Bool) (resp : TwUpstream) : TwItem :=
  if hasKey then
    match resp with
    | .ok p => p
    | _ => emptyTw
  else emptyTw

/-- The mock tweet `scrape_twitter` substitutes when the API yields
nothing. -/
def mockTweet (u : Str) : TwItem :=
  { text := some ("Mock tweet from @".toList ++ u ++ ". They post about tech and memes.".toList),
    likeCount := some 100 }

/-- `MultiPlatformScraperService.scrape_twitter` (single-item twitter entry
point): canned fallback first, then the SocialData profile fetch wrapped in
a one-element list, else mock data. -/
def scrape_twitter (hasKey : Bool) (resp : TwUpstream) (u : Str) : List TwItem :=
  match fallbackTw (lowers u) with
  | some l => l
  | none =>
    if hasKey then
      let profile := get_user_profile hasKey resp
      if profile.truthy then [profile] else [mockTweet u]
    else [mockTweet u]

/-- The fan-in loop of `batch_scrape_twitter`: `completed` is the
`as_completed` order of `(username, scrape_single result)` pairs, where
`scrape_single` converts any exception to `(username, [])`; the loop stores
`results[username] = data` only when `data` is truthy. -/
def batch_scrape_twitter (completed : List (Str × List TwItem)) : List (Str × List TwItem) :=
  completed.foldl (fun res ud => if ud.2 = [] then res else dinsert res ud.1 ud.2) []

def upCh (c : Char) : Char :=
  match c with
  | 'a' => 'A' | 'b' => 'B' | 'c' => 'C' | 'd' => 'D' | 'e' => 'E' | 'f' => 'F'
  | 'g' => 'G' | 'h' => 'H' | 'i' => 'I' | 'j' => 'J' | 'k' => 'K' | 'l' => 'L'
  | 'm' => 'M' | 'n' => 'N' | 'o' => 'O' | 'p' => 'P' | 'q' => 'Q' | 'r' => 'R'
  | 's' => 'S' | 't' => 'T' | 'u' => 'U' | 'v' => 'V' | 'w' => 'W' | 'x' => 'X'
  | 'y' => 'Y' | 'z' => 'Z'
  | c => c

def isAlphaCh (c : Char) : Bool := ('a' ≤ c && c ≤ 'z') || ('A' ≤ c && c ≤ 'Z')

def pyTitleGo : Bool → Str → Str
  | _, [] => []
  | prevAlpha, c :: t => (if prevAlpha then low c else upCh c) :: pyTitleGo (isAlphaCh c) t

/-- Python `str.title()` (ASCII fragment), used by the mock payloads. -/
def pyTitle (s : Str) : Str := pyTitleGo false s

/-- Mock instagram payload of `batch_scrape_instagram` when no Apify token
is configured. -/
def mockIgBatch (u : Str) : IgData :=
  { fullName := some (pyTitle u),
    biography := some ("Mock bio for ".toList ++ u ++ ".".toList),
    followersCount := some 10000,
    posts := some [{ caption := some ("Living my best life ✨".toList) }] }

/-- The match-back loop of `batch_scrape_instagram`: for each response item,
find the first requested username whose lowercase form equals the item's
echoed lowercase `username` and store the item under it. -/
def matchBack (results0 : List (Str × IgData)) (remaining : List Str)
    (items : List IgData) : List (Str × IgData) :=
  items.foldl (fun res item =>
    match remaining.find? (fun orig => lowers orig = lowers (item.username.getD [])) with
    | some orig => dinsert res orig item
    | none => res) results0

/-- `MultiPlatformScraperService.batch_scrape_instagram`. `upstream` is the
outcome of the single Apify actor call (`none` = the call raised, handled by
the `except` that returns the results gathered so far). The second component
counts upstream (actor) calls issued. -/
def batch_scrape_instagram (hasToken : Bool) (upstream : Option (List IgData))
    (usernames : List Str) : List (Str × IgData) × Nat :=
  if usernames = [] then ([], 0) else
  let fb := usernames.foldl
    (fun (acc : List (Str × IgData) × List Str) u =>
      match fallbackIg (lowers u) with
      | some d => (dinsert acc.1 u d, acc.2)
      | none => (acc.1, acc.2 ++ [u])) ([], [])
  if fb.2 = [] then (fb.1, 0)
  else if hasToken = false then
    (fb.2.foldl (fun res u => dinsert res u (mockIgBatch u)) fb.1, 0)
  else
    match upstream with
    | none => (fb.1, 1)
    | some items => (matchBack fb.1 fb.2 items, 1)

/-! ## `main.py`: fan-out/fan-in orchestration folds -/

def dtName : Str := "Digital Twin".toList

/-- The `detected_name` resolution loop of `create_fighter` /
`_scrape_fighter_data`: `completed` lists the scrape tasks in `as_completed`
order as `(platform, username, data-truthiness)`; the first task that
completes with truthy data sets the name to `"@" + username`. -/
def detectedName (completed : List (Platform × Str × Bool)) : Str :=
  completed.foldl
    (fun acc t => if t.2.2 = true ∧ acc = dtName then '@' :: t.2.1 else acc)
    dtName

inductive FId where
  | f1 | f2
deriving DecidableEq

/-- The `ig_username_to_fighter` construction in `create_fighters_batch`:
fighter 1's usernames are written first, fighter 2's second, into one
username-keyed dict. -/
def buildOwner (f1s f2s : List Str) : List (Str × FId) :=
  f2s.foldl (fun m u => dinsert m u .f2)
    (f1s.foldl (fun m u => dinsert m u .f1) [])

/-- The instagram split loop of `create_fighters_batch` step 3, projected to
the pair `(f1_data["instagram"], f2_data["instagram"])`: a result whose
username is not mapped to `"f1"` goes to fighter 2. -/
def splitOne (owner : List (Str × FId)) (results : List (Str × IgData)) :
    Option IgData × Option IgData :=
  results.foldl
    (fun acc ud =>
      if dlookup owner ud.1 = some .f1 then (some ud.2, acc.2)
      else (acc.1, some ud.2))
    (none, none)

/-- The scrape-task construction of `create_fighter`: every routed bucket
except `"unknown"` contributes its `(platform, username)` pairs. -/
def scrape_tasks (urls : List Str) : List (Platform × Str) :=
  ([Platform.twitter, .instagram, .linkedin, .facebook]).flatMap
    fun p => (route_urls urls p).map fun i => (p, i.username)

/-! ## `profiler.py`: ProfileAggregator normalizers and `aggregate` -/

/-- Python `sep.join(parts)`. -/
def joinSep (sep : Str) : List Str → Str
  | [] => []
  | [x] => x
  | x :: y :: t => x ++ sep ++ joinSep sep (y :: t)

/-- Decimal digits of `n`. -/
def natStr (n : Nat) : Str := (Nat.repr n).toList

def commaRev : Str → Str
  | a :: b :: c :: d :: rest => a :: b :: c :: ',' :: commaRev (d :: rest)
  | l => l

/-- Python `f"{n:,}"`: thousands grouping. -/
def commaFmt (n : Nat) : Str := (commaRev (natStr n).reverse).reverse

/-- Python `s.split()` (split on whitespace runs, dropping empties). -/
def pyWords : Str → List Str
  | [] => []
  | c :: t =>
    if isWs c then pyWords t
    else (c :: t.takeWhile (fun x => !isWs x)) :: pyWords (t.dropWhile (fun x => !isWs x))
termination_by s => s.length
decreasing_by
  · simp
  · have h : (t.dropWhile (fun x => !isWs x)).length ≤ t.length :=
      (List.dropWhile_sublist _).length_le
    simp at h ⊢
    omega

/-- Python `" ".join(s.split())` — whitespace normalization. -/
def joinWords (s : Str) : Str := joinSep (" ".toList) (pyWords s)

def noTwitterMsg : Str := "No Twitter data available.".toList
def noIgMsg : Str := "No Instagram data available.".toList
def noLiMsg : Str := "No LinkedIn data available.".toList
def noFbMsg : Str := "No Facebook data available.".toList

/-- Python `a or b or ... or ""` over string-valued `get`s: the first
present, non-empty value. -/
def pyOrStrs : List (Option Str) → Str
  | [] => []
  | o :: t =>
    match o with
    | some s => if s = [] then pyOrStrs t else s
    | none => pyOrStrs t

/-- `tweet.get("text") or tweet.get("full_text") or tweet.get("fullText")
or tweet.get("content") or ""`. -/
def tweetText (t : TwItem) : Str := pyOrStrs [t.text, t.full_text, t.fullText, t.content]

/-- The `parts` list built by the profile branch of `normalize_twitter`. -/
def twProfileParts (p : TwItem) : List Str :=
  let name := p.name.getD ("Unknown".toList)
  let handle := p.screen_name.getD ("unknown".toList)
  let bio := p.description.getD ("No bio.".toList)
  let location := p.location.getD []
  let created_at := p.created_at.getD []
  let followers := p.followers_count.getD 0
  let following := p.friends_count.getD 0
  let tweets := p.statuses_count.getD 0
  let likes := p.favourites_count.getD 0
  ["Name: ".toList ++ name ++ " (@".toList ++ handle ++ ")".toList,
   "Bio: ".toList ++ bio]
  ++ (if location = [] then [] else ["Location: ".toList ++ location])
  ++ (if created_at = [] then [] else ["Account Created: ".toList ++ created_at])
  ++ ["Stats: ".toList ++ commaFmt followers ++ " Followers, ".toList ++
      commaFmt following ++ " Following, ".toList ++ commaFmt tweets ++
      " Tweets, ".toList ++ commaFmt likes ++ " Likes".toList]
  ++ (if p.verified.getD false then ["Status: Verified Account".toList] else [])

/-- `ProfileAggregator.normalize_twitter`. -/
def normTwitter (raw : List TwItem) : Str :=
  match raw with
  | [] => noTwitterMsg
  | first :: _ =>
    if first.screen_name.isSome || first.description.isSome then
      "TWITTER PROFILE:\n".toList ++ joinSep ("\n".toList) (twProfileParts first)
    else
      let posts := (raw.take 15).filterMap fun t =>
        let txt := tweetText t
        if txt = [] then none else some ("Tweet: ".toList ++ txt)
      if posts = [] then noTwitterMsg
      else "TWITTER POSTS:\n".toList ++ joinSep ("\n---\n".toList) posts

/-- `post.get("caption", post.get("edge_media_to_caption", ...))`. -/
def igCaption (p : IgPost) : Str :=
  match p.caption with
  | some s => s
  | none => p.nested_caption.getD []

/-- The caption list built by `normalize_instagram`: at most 10 posts, each
non-empty caption truncated with `caption[:500]`. -/
def igCaptions (posts : List IgPost) : List Str :=
  (posts.take 10).filterMap fun p =>
    let c := igCaption p
    if c = [] then none else some (c.take 500)

/-- `ProfileAggregator.normalize_instagram`. -/
def normInstagram (d : IgData) : Str :=
  if d.truthy = false then noIgMsg else
  let bio := d.biography.getD []
  let name := match d.fullName with | some s => s | none => d.full_name.getD []
  let followers :=
    match d.followersCount with
    | some n => n
    | none => d.edge_followed_by_count.getD 0
  let postsL := match d.posts with | some l => l | none => d.latestPosts.getD []
  let caps := igCaptions postsL
  let parts :=
    (if name = [] then [] else ["Name: ".toList ++ name])
    ++ (if bio = [] then [] else ["Bio: ".toList ++ bio])
    ++ (if followers = 0 then [] else ["Followers: ".toList ++ commaFmt followers])
    ++ (if caps = [] then []
        else ["RECENT CAPTIONS:\n".toList ++ joinSep ("\n---\n".toList) caps])
  if parts = [] then noIgMsg
  else "INSTAGRAM PROFILE:\n".toList ++ joinSep ("\n".toList) parts

def liCompany (pos : LiPosition) : Str :=
  match pos.companyName with
  | some s => s
  | none =>
    match pos.company with
    | some s => s
    | none => pos.organizationName.getD []

/-- One `exp_parts` entry of `normalize_linkedin` (role description truncated
with `description[:200]`). -/
def liExpEntry (pos : LiPosition) : Option Str :=
  let title := pos.title.getD []
  let company := liCompany pos
  let desc := pos.description.getD []
  if title = [] ∧ company = [] then none
  else some ("- ".toList ++ title ++ " at ".toList ++ company ++
    (if desc = [] then [] else ": ".toList ++ desc.take 200))

def liEduEntry (edu : LiEducation) : Option Str :=
  let school := match edu.schoolName with | some s => s | none => edu.school.getD []
  let degree := match edu.degreeName with | some s => s | none => edu.degree.getD []
  let field := edu.fieldOfStudy.getD []
  if school = [] then none
  else if degree = [] then some ("- Studied at ".toList ++ school)
  else some ("- ".toList ++ degree ++ " in ".toList ++ field ++ " from ".toList ++ school)

/-- The post-body rendering of `normalize_linkedin`: whitespace-normalize via
`" ".join(text.split())`, then slice the *normalized* text to 300 characters
(the `len(text) > 300` test is on the original text). -/
def liPostBody (text : Str) : Str :=
  if text.length > 300 then (joinWords text).take 300 ++ "...".toList
  else joinWords text

def liPostText (post : LiPost) : Str :=
  match post.text with
  | some s => s
  | none =>
    match post.commentary with
    | some s => s
    | none => post.textContent.getD []

def liPostLine (post : LiPost) : Option Str :=
  let text := liPostText post
  let likes := match post.numLikes with | some n => n | none => post.likesCount.getD 0
  let comments := match post.numComments with | some n => n | none => post.commentsCount.getD 0
  if text = [] then none
  else some ("- \"".toList ++ liPostBody text ++ "\" (".toList ++ natStr likes ++
    " likes, ".toList ++ natStr comments ++ " comments)".toList)

/-- `About:` part of `normalize_linkedin` (`summary[:1000]`). -/
def liAboutPart (s : Str) : Str := "About: ".toList ++ s.take 1000

/-- `ProfileAggregator.normalize_linkedin`. -/
def normLinkedin (d : LiData) : Str :=
  if d.truthy = false then noLiMsg else
  let first := d.firstName.getD []
  let last := d.lastName.getD []
  let headline := d.headline.getD []
  let location :=
    match d.locationName with
    | some s => s
    | none => match d.location with | some s => s | none => d.geoLocationName.getD []
  let summary := match d.summary with | some s => s | none => d.about.getD []
  let positionsL :=
    match d.positions with
    | some l => l
    | none => match d.experience with | some l => l | none => d.workExperience.getD []
  let educationsL := match d.educations with | some l => l | none => d.education.getD []
  let certsL := d.certifications.getD []
  let postsL := d.posts.getD []
  let expParts := (positionsL.take 5).filterMap liExpEntry
  let eduParts := (educationsL.take 3).filterMap liEduEntry
  let certNames := (certsL.take 5).filterMap fun c =>
    let n := c.name.getD []
    if n = [] then none else some n
  let postParts := (postsL.take 3).filterMap liPostLine
  let parts :=
    (if first = [] ∧ last = [] then []
     else [pyStrip ("Name: ".toList ++ first ++ " ".toList ++ last)])
    ++ (if headline = [] then [] else ["Headline: ".toList ++ headline])
    ++ (if location = [] then [] else ["Location: ".toList ++ location])
    ++ (if summary = [] then [] else [liAboutPart summary])
    ++ (if expParts = [] then [] else ["EXPERIENCE:\n".toList ++ joinSep ("\n".toList) expParts])
    ++ (if eduParts = [] then [] else ["EDUCATION:\n".toList ++ joinSep ("\n".toList) eduParts])
    ++ (if certNames = [] then [] else ["CERTIFICATIONS: ".toList ++ joinSep (", ".toList) certNames])
    ++ (if postParts = [] then [] else ["RECENT POSTS:\n".toList ++ joinSep ("\n".toList) postParts])
  if parts = [] then noLiMsg
  else "LINKEDIN PROFILE:\n".toList ++ joinSep ("\n".toList) parts

def fbPostLine (post : FbPost) : Option Str :=
  let text :=
    match post.text with
    | some s => s
    | none => match post.message with | some s => s | none => post.postText.getD []
  let likes := match post.likes with | some n => n | none => post.likesCount.getD 0
  let shares := match post.shares with | some n => n | none => post.sharesCount.getD 0
  let comments := match post.comments with | some n => n | none => post.commentsCount.getD 0
  if text = [] then none
  else some ("Post: ".toList ++ text.take 500 ++ " (".toList ++ natStr likes ++
    " likes, ".toList ++ natStr shares ++ " shares, ".toList ++ natStr comments ++
    " comments)".toList)

/-- `ProfileAggregator.normalize_facebook`. -/
def normFacebook (d : FbData) : Str :=
  if d.truthy = false then noFbMsg else
  let name := match d.name with | some s => s | none => d.title.getD []
  let about := match d.about with | some s => s | none => d.description.getD []
  let likes := match d.likes with | some n => n | none => d.likesCount.getD 0
  let followers := match d.followers with | some n => n | none => d.followersCount.getD 0
  let website := d.website.getD []
  let category := d.category.getD []
  let postsL := d.posts.getD []
  let postParts := (postsL.take 10).filterMap fbPostLine
  let parts :=
    (if name = [] then [] else ["Name: ".toList ++ name])
    ++ (if category = [] then [] else ["Category: ".toList ++ category])
    ++ (if about = [] then [] else ["About: ".toList ++ about.take 500])
    ++ (if likes = 0 ∧ followers = 0 then []
        else ["Engagement: ".toList ++ commaFmt likes ++ " Likes, ".toList ++
              commaFmt followers ++ " Followers".toList])
    ++ (if website = [] then [] else ["Website: ".toList ++ website])
    ++ (if postParts = [] then []
        else ["RECENT POSTS:\n".toList ++ joinSep ("\n---\n".toList) postParts])
  if parts = [] then noFbMsg
  else "FACEBOOK PROFILE:\n".toList ++ joinSep ("\n".toList) parts

/-- The `platform_data` dict handed to `ProfileAggregator.aggregate`. -/
structure PlatformData where
  twitter : Option (List TwItem) := none
  instagram : Option IgData := none
  linkedin : Option LiData := none
  facebook : Option FbData := none
deriving DecidableEq

/-- The `sections` list of `aggregate`: present and truthy platforms, in the
fixed order twitter, instagram, linkedin, facebook. -/
def sectionsOf (pd : PlatformData) : List Str :=
  (match pd.twitter with
   | some l => if l = [] then [] else [normTwitter l]
   | none => [])
  ++ (match pd.instagram with
      | some d => if d.truthy then [normInstagram d] else []
      | none => [])
  ++ (match pd.linkedin with
      | some d => if d.truthy then [normLinkedin d] else []
      | none => [])
  ++ (match pd.facebook with
      | some d => if d.truthy then [normFacebook d] else []
      | none => [])

def noDataMsg : Str := "No social media data available for this person.".toList

def aggDelim : Str := "\n\n========================================\n\n".toList

/-- `ProfileAggregator.aggregate`. -/
def aggregate (pd : PlatformData) : Str :=
  if sectionsOf pd = [] then noDataMsg else joinSep aggDelim (sectionsOf pd)

/-! ## Concrete instances used by the claim theorems -/

def urlTw1 : Str := "https://twitter.com/elonmusk".toList
def urlIg1 : Str := "https://instagram.com/zuck".toList
def urlX2 : Str := "https://x.com/foo".toList
def urlLi2 : Str := "https://www.linkedin.com/in/jane-doe/".toList
def urlBad : Str := "mailto:someone@example.com".toList
def urlLower : Str := "https://twitter.com/alice".toList
def urlUpper : Str := "HTTPS://TWITTER.COM/ALICE".toList
def userA : Str := "alice".toList
def userB : Str := "bob".toList
def zuckStr : Str := "zuck".toList
def someUser : Str := "someuser".toList

/-- Two `as_completed` orders of the same two successful scrape tasks. -/
def cexOrderA : List (Platform × Str × Bool) := [(.twitter, userA, true), (.instagram, userB, true)]
def cexOrderB : List (Platform × Str × Bool) := [(.instagram, userB, true), (.twitter, userA, true)]

/-- Two twitter batch tasks: `alice` succeeds, `bob` fails soft (empty
payload). -/
def c1tasks : List (Str × List TwItem) := [(userA, [mockTweet userA]), (userB, [])]

def longBio : Str := List.replicate 2000 'a'

/-- A SocialData profile whose bio has 2000 characters. -/
def bioProfile : TwItem := { screen_name := some ("u".toList), description := some longBio }

def c10Head : Str := "TWITTER PROFILE:\nName: Unknown (@u)\nBio: ".toList
def c10Tail : Str := "\nStats: 0 Followers, 0 Following, 0 Tweets, 0 Likes".toList

def pdEmpty : PlatformData := {}
def pdTw : PlatformData := { twitter := some [mockTweet userA] }

def c5item : IgData := { username := some userA, biography := some ("hi".toList) }

def wA : Str := "HTTPS://".toList
def wB : Str := "WwW.".toList
def wDom : Str := "tWiTtEr.CoM/".toList
def wUser : Str := "Alice".toList
def wSfx : Str := "/status".toList
def wSfxR : Str := "status".toList

/-- Well-formedness of the optional trailing part after a username segment:
empty, or a `/`-led whitespace-free path suffix. -/
def SfxOk (t : Str) : Prop :=
  t = [] ∨ ∃ r, t = '/' :: r ∧ ∀ ch ∈ r, isWs ch = false

/-! ## Association-list (Python dict) lemmas -/

theorem dlookup_append {α : Type} (m1 m2 : List (Str × α)) (q : Str) :
    dlookup (m1 ++ m2) q =
      match dlookup m1 q with
      | some v => some v
      | none => dlookup m2 q := by
  induction m1 with
  | nil => simp [dlookup]
  | cons p t ih =>
    obtain ⟨k, v⟩ := p
    by_cases h : k = q <;> simp [dlookup, h, ih]

theorem dlookup_map_replace_ne {α : Type} (m : List (Str × α)) (k : Str) (v : α)
    (q : Str) (h : ¬ k = q) :
    dlookup (m.map fun p => if p.1 = k then (k, v) else p) q = dlookup m q := by
  induction m with
  | nil => simp [dlookup]
  | cons p t ih =>
    obtain ⟨a, b⟩ := p
    simp only [List.map_cons, dlookup]
    by_cases hak : a = k
    · subst hak
      rw [if_pos (show ((a, b).1 = a) from rfl)]
      simp [h, ih]
    · rw [if_neg (show ¬ ((a, b).1 = k) from hak)]
      by_cases haq : a = q <;> simp [haq, ih]

theorem dlookup_map_replace_self {α : Type} (m : List (Str × α)) (k : Str) (v : α)
    (hmem : (dlookup m k).isSome) :
    dlookup (m.map fun p => if p.1 = k then (k, v) else p) k = some v := by
  induction m with
  | nil => simp [dlookup] at hmem
  | cons p t ih =>
    obtain ⟨a, b⟩ := p
    simp only [List.map_cons, dlookup]
    by_cases hak : a = k
    · subst hak
      rw [if_pos (show ((a, b).1 = a) from rfl)]
      simp
    · rw [if_neg (show ¬ ((a, b).1 = k) from hak)]
      simp only [dlookup, if_neg (show ¬ ((a, b).1 = k) from hak)] at hmem
      simp [hak, ih hmem]

theorem dlookup_dinsert {α : Type} (m : List (Str × α)) (k : Str) (v : α) (q : Str) :
    dlookup (dinsert m k v) q = if k = q then some v else dlookup m q := by
  unfold dinsert
  by_cases hmem : (dlookup m k).isSome
  · rw [if_pos hmem]
    by_cases hkq : k = q
    · subst hkq; rw [if_pos rfl]; exact dlookup_map_replace_self m k v hmem
    · rw [if_neg hkq]; exact dlookup_map_replace_ne m k v q hkq
  · rw [if_neg hmem, dlookup_append]
    by_cases hkq : k = q
    · subst hkq
      have hnone : dlookup m k = none := by
        cases h2 : dlookup m k
        · rfl
        · exact absurd (by rw [h2]; rfl) hmem
      rw [hnone]; simp [dlookup]
    · cases h2 : dlookup m q <;> simp [dlookup, hkq, h2]

theorem dlookup_none_of_not_mem_keys {α : Type} (m : List (Str × α)) (q : Str)
    (h : q ∉ m.map Prod.fst) : dlookup m q = none := by
  induction m with
  | nil => rfl
  | cons p t ih =>
    obtain ⟨a, b⟩ := p
    simp only [List.map_cons, List.mem_cons] at h
    push_neg at h
    have hne : ¬ a = q := fun hh => h.1 hh.symm
    simp [dlookup, hne, ih h.2]

theorem dlookup_foldl_dinsert_nmem {α : Type} (v : α) (l : List Str) :
    ∀ (m : List (Str × α)) (u : Str), u ∉ l →
      dlookup (l.foldl (fun m x => dinsert m x v) m) u = dlookup m u := by
  induction l with
  | nil => intro m u _; rfl
  | cons x t ih =>
    intro m u hu
    simp only [List.mem_cons] at hu
    push_neg at hu
    simp only [List.foldl_cons]
    rw [ih _ u hu.2, dlookup_dinsert]
    rw [if_neg (fun h => hu.1 h.symm)]

theorem dlookup_foldl_dinsert_mem {α : Type} (v : α) (l : List Str) :
    ∀ (m : List (Str × α)) (u : Str), u ∈ l →
      dlookup (l.foldl (fun m x => dinsert m x v) m) u = some v := by
  induction l with
  | nil => intro m u h; simp at h
  | cons x t ih =>
    intro m u hu
    by_cases hut : u ∈ t
    · exact ih _ u hut
    · have hux : u = x := by
        rcases List.mem_cons.mp hu with h | h
        · exact h
        · exact absurd h hut
      subst hux
      simp only [List.foldl_cons]
      rw [dlookup_foldl_dinsert_nmem v t _ u hut, dlookup_dinsert, if_pos rfl]

/-! ## C1: partial failure at the fan-in -/

theorem dinsert_nmem {α : Type} (m : List (Str × α)) (k : Str) (v : α)
    (h : dlookup m k = none) : dinsert m k v = m ++ [(k, v)] := by
  simp [dinsert, h]

theorem bst_eq_filter_aux (completed : List (Str × List TwItem)) :
    ∀ acc, (∀ k, k ∈ completed.map Prod.fst → dlookup acc k = none) →
      (completed.map Prod.fst).Nodup →
      completed.foldl (fun res ud => if ud.2 = [] then res else dinsert res ud.1 ud.2) acc
        = acc ++ completed.filter (fun ud => ¬ ud.2 = []) := by
  induction completed with
  | nil => intro acc _ _; simp
  | cons hd t ih =>
    obtain ⟨k, d⟩ := hd
    intro acc hacc hnd
    simp only [List.map_cons, List.nodup_cons] at hnd
    simp only [List.foldl_cons]
    by_cases hd0 : d = []
    · rw [if_pos hd0]
      rw [ih acc (fun k' hk' => hacc k' (by simp [hk'])) hnd.2]
      rw [List.filter_cons]
      simp [hd0]
    · rw [if_neg hd0]
      rw [dinsert_nmem acc k d (hacc k (by simp))]
      rw [ih (acc ++ [(k, d)]) ?hyp hnd.2]
      · rw [List.filter_cons]
        simp [hd0, List.append_assoc]
      case hyp =>
        intro k' hk'
        rw [dlookup_append]
        rw [hacc k' (by simp [hk'])]
        have hne : ¬ k = k' := fun h => hnd.1 (h ▸ hk')
        simp [dlookup, hne]

theorem dlookup_filter_tw (completed : List (Str × List TwItem)) :
    ∀ (k : Str) (d : List TwItem), (completed.map Prod.fst).Nodup →
      (k, d) ∈ completed →
      dlookup (completed.filter fun ud => ¬ ud.2 = []) k
        = if d = [] then none else some d := by
  induction completed with
  | nil => intro k d _ h; simp at h
  | cons hd t ih =>
    obtain ⟨a, b⟩ := hd
    intro k d hnd hmem
    simp only [List.map_cons, List.nodup_cons] at hnd
    rcases List.mem_cons.mp hmem with h | h
    · have hk : k = a := congrArg Prod.fst h
      have hb : d = b := congrArg Prod.snd h
      subst hk; subst hb
      by_cases hd0 : d = []
      · rw [List.filter_cons, if_neg (by simp [hd0])]
        rw [if_pos hd0]
        apply dlookup_none_of_not_mem_keys
        intro hin
        exact hnd.1 (((List.filter_sublist t).map Prod.fst).subset hin)
      · rw [List.filter_cons, if_pos (by simp [hd0])]
        simp [dlookup, hd0]
    · have hkt : k ∈ t.map Prod.fst := List.mem_map.mpr ⟨(k, d), h, rfl⟩
      have hak : ¬ a = k := fun hh => hnd.1 (hh ▸ hkt)
      rw [List.filter_cons]
      by_cases hb0 : b = []
      · rw [if_neg (by simp [hb0])]
        exact ih k d hnd.2 h
      · rw [if_pos (by simp [hb0])]
        simp only [dlookup, if_neg hak]
        exact ih k d hnd.2 h

/-- C1 counterexample: with two tasks, of which the second one's adapter
call yields an empty payload, the fan-in returns a one-entry mapping; the
failing task's key is omitted entirely, not stored as an explicit absent
result — contrary to the claim's "N-1 successful results and exactly one
explicit absent result; never omit the failing task's key". -/
theorem c1_partial_failure_counterexample :
    batch_scrape_twitter c1tasks = [(userA, [mockTweet userA])] ∧
    dlookup (batch_scrape_twitter c1tasks) userB = none ∧
    (batch_scrape_twitter c1tasks).length = 1 := by decide

/-- C1 (amended): for distinct task keys, the fan-in of
`batch_scrape_twitter` never raises and returns exactly the successful
(truthy-payload) tasks in completion order; the lookup of a failing task's
key is `none` (the key is omitted), and the mapping has as many entries as
successful tasks. -/
theorem c1_partial_failure_amended (completed : List (Str × List TwItem))
    (hnd : (completed.map Prod.fst).Nodup) :
    batch_scrape_twitter completed = completed.filter (fun ud => ¬ ud.2 = []) ∧
    (∀ k d, (k, d) ∈ completed →
      dlookup (batch_scrape_twitter completed) k = if d = [] then none else some d) ∧
    (batch_scrape_twitter completed).length
      = (completed.filter (fun ud => ¬ ud.2 = [])).length := by
  have heq : batch_scrape_twitter completed
      = completed.filter (fun ud => ¬ ud.2 = []) := by
    have h := bst_eq_filter_aux completed [] (fun _ _ => rfl) hnd
    simpa [batch_scrape_twitter] using h
  refine ⟨heq, ?_, by rw [heq]⟩
  intro k d hmem
  rw [heq]
  exact dlookup_filter_tw completed k d hnd hmem

theorem c1_partial_failure_amended_witness :
    dlookup (batch_scrape_twitter c1tasks) userA = some [mockTweet userA] ∧
    dlookup (batch_scrape_twitter c1tasks) userB = none ∧
    (batch_scrape_twitter c1tasks).length = 1 := by
  have h := c1_partial_failure_amended c1tasks (by decide)
  refine ⟨?_, ?_, ?_⟩
  · have h2 := h.2.1 userA [mockTweet userA] (by decide)
    simpa using h2
  · have h2 := h.2.1 userB [] (by decide)
    simpa using h2
  · rw [h.2.2]; decide

/-! ## C2: the same handle cited by both fighters -/

/-- C2 counterexample: `"zuck"` appears in both fighters' instagram lists;
the fetched payload lands only in fighter 2's results and fighter 1's
instagram slot stays empty — the identifier IS deduplicated across entities
by the username-keyed ownership dict, contrary to the claim. -/
theorem c2_shared_handle_counterexample :
    (splitOne (buildOwner [zuckStr] [zuckStr]) [(zuckStr, zuckIg)]).1 = none ∧
    (splitOne (buildOwner [zuckStr] [zuckStr]) [(zuckStr, zuckIg)]).2 = some zuckIg := by
  decide

/-- C2 (amended): when the same canonical identifier appears in both
entities' lists for a source, the second entity's registration overwrites
the first in the username-keyed ownership map, so the fetched payload is
delivered only to the second entity's per-source results and the first
entity's results omit it. -/
theorem c2_shared_handle_amended (f1s f2s : List Str) (u : Str) (d : IgData)
    (h : u ∈ f2s) :
    splitOne (buildOwner f1s f2s) [(u, d)] = (none, some d) := by
  have howner : dlookup (buildOwner f1s f2s) u = some .f2 :=
    dlookup_foldl_dinsert_mem _ f2s _ u h
  simp [splitOne, howner]

theorem c2_shared_handle_amended_witness :
    splitOne (buildOwner [userA] [userA]) [(userA, zuckIg)] = (none, some zuckIg) :=
  c2_shared_handle_amended [userA] [userA] userA zuckIg (by decide)

/-! ## C3: display-name resolution -/

theorem detectedName_stay (l : List (Platform × Str × Bool)) :
    ∀ acc, ¬ acc = dtName →
      l.foldl (fun acc t => if t.2.2 = true ∧ acc = dtName then '@' :: t.2.1 else acc) acc
        = acc := by
  induction l with
  | nil => intro acc _; rfl
  | cons hd t ih =>
    intro acc h
    simp only [List.foldl_cons]
    rw [if_neg (fun hc => h hc.2)]
    exact ih acc h

theorem at_ne_dtName (u : Str) : ¬ '@' :: u = dtName := by
  intro h
  have hd : dtName = 'D' :: "igital Twin".toList := by decide
  rw [hd] at h
  injection h with h1 _
  exact absurd h1 (by decide)

/-- C3 (amended): in the single-fighter path, the resolved display name is
`"@" + username` of the *first task in completion order* that returned
truthy data (not the highest-priority source), and the constant
`"Digital Twin"` — not a mention-marker placeholder — when no task returned
data. -/
theorem c3_name_resolution_amended (completed : List (Platform × Str × Bool)) :
    detectedName completed =
      match completed.find? (fun t => t.2.2) with
      | some t => '@' :: t.2.1
      | none => dtName := by
  induction completed with
  | nil => rfl
  | cons hd t ih =>
    unfold detectedName at ih ⊢
    simp only [List.foldl_cons]
    by_cases hh : hd.2.2 = true
    · rw [if_pos]
      · rw [detectedName_stay t _ (at_ne_dtName _)]
        rw [show List.find? (fun t => t.2.2) (hd :: t) = some hd from
          List.find?_cons_of_pos _ hh]
      · simp [hh]
    · rw [if_neg]
      · rw [ih]
        rw [show List.find? (fun t => t.2.2) (hd :: t) = List.find? (fun t => t.2.2) t from
          List.find?_cons_of_neg _ (by simpa using hh)]
      · simp [hh]

/-- C3 counterexample: the same two successful tasks, arriving in two
different completion orders (a permutation of each other), resolve to two
different display names — resolution depends on completion order, not on a
fixed source priority. -/
theorem c3_name_order_counterexample :
    ¬ detectedName cexOrderA = detectedName cexOrderB ∧ cexOrderA.Perm cexOrderB := by
  constructor
  · decide
  · exact List.Perm.swap _ _ _

/-! ## C4: soft failure of the single-item twitter fetch -/

/-- C4 counterexample: with no API key configured (the ConfigurationMissing
error condition), the single-item twitter entry point returns a non-empty
*mock* payload, not the explicit empty/absent payload the claim requires
(the underlying profile fetch does return the empty payload). -/
theorem c4_soft_failure_counterexample :
    scrape_twitter false .requestErr someUser = [mockTweet someUser] ∧
    ¬ scrape_twitter false .requestErr someUser = [] ∧
    get_user_profile false .requestErr = emptyTw := by decide

/-- C4 (amended): for every identifier outside the canned-fallback table and
every upstream error condition (not-found, credit failure, HTTP error,
request/timeout error, malformed body, missing credential), the profile
fetch `get_user_profile` returns the explicit empty payload `{}` and never
raises, while the adapter entry point `scrape_twitter` never raises but
substitutes a one-element mock payload instead of an empty one. -/
theorem c4_soft_failure_amended (hasKey : Bool) (resp : TwUpstream) (u : Str)
    (hfb : fallbackTw (lowers u) = none) (herr : resp.isErr = true) :
    get_user_profile hasKey resp = emptyTw ∧
    scrape_twitter hasKey resp u = [mockTweet u] := by
  have hprof : get_user_profile hasKey resp = emptyTw := by
    cases resp with
    | ok p => simp [TwUpstream.isErr] at herr
    | notFound => cases hasKey <;> rfl
    | insufficientCredits => cases hasKey <;> rfl
    | httpError code => cases hasKey <;> rfl
    | requestErr => cases hasKey <;> rfl
    | badJson => cases hasKey <;> rfl
  refine ⟨hprof, ?_⟩
  unfold scrape_twitter
  rw [hfb]
  cases hasKey
  · rfl
  · rw [if_pos rfl]
    simp only [hprof]
    rfl

theorem c4_soft_failure_amended_witness :
    get_user_profile true .notFound = emptyTw ∧
    scrape_twitter true .notFound someUser = [mockTweet someUser] :=
  c4_soft_failure_amended true .notFound someUser (by decide) (by decide)

/-! ## C7 counterexample and C8 concrete routing -/

/-- C7 counterexample: uppercasing the whole URL keeps the platform
(patterns are case-insensitive) but changes the extracted canonical
identifier, because the username capture preserves the input's casing —
the canonical identifier is *not* invariant under URL casing. -/
theorem c7_route_counterexample :
    (detect_platform urlLower).platform = .twitter ∧
    (detect_platform urlUpper).platform = .twitter ∧
    ¬ (detect_platform urlLower).username = (detect_platform urlUpper).username := by
  decide

/-- C8: the two concrete routing scenarios of the spec, checked bucket by
bucket. -/
theorem c8_concrete_routing :
    route_urls [urlTw1, urlIg1] .twitter = [⟨.twitter, "elonmusk".toList, urlTw1⟩] ∧
    route_urls [urlTw1, urlIg1] .instagram = [⟨.instagram, "zuck".toList, urlIg1⟩] ∧
    route_urls [urlTw1, urlIg1] .linkedin = [] ∧
    route_urls [urlTw1, urlIg1] .facebook = [] ∧
    route_urls [urlTw1, urlIg1] .unknown = [] ∧
    route_urls [urlX2, urlLi2] .twitter = [⟨.twitter, "foo".toList, urlX2⟩] ∧
    route_urls [urlX2, urlLi2] .linkedin = [⟨.linkedin, "jane-doe".toList, urlLi2⟩] ∧
    route_urls [urlX2, urlLi2] .instagram = [] ∧
    route_urls [urlX2, urlLi2] .facebook = [] ∧
    route_urls [urlX2, urlLi2] .unknown = [] := by decide

/-! ## C5: grouped instagram batch fetch -/

theorem matchBack_isSome (items : List IgData) :
    ∀ (res : List (Str × IgData)) (remaining : List Str) (u : Str),
      (∀ a ∈ remaining, ∀ b ∈ remaining, lowers a = lowers b → a = b) →
      ((dlookup (matchBack res remaining items) u).isSome ↔
        (dlookup res u).isSome ∨
          (u ∈ remaining ∧ ∃ it ∈ items, lowers (it.username.getD []) = lowers u)) := by
  induction items with
  | nil =>
    intro res remaining u _
    simp [matchBack]
  | cons it t ih =>
    intro res remaining u hinj
    have hstep : matchBack res remaining (it :: t)
        = matchBack
            (match remaining.find? (fun orig => lowers orig = lowers (it.username.getD [])) with
             | some orig => dinsert res orig it
             | none => res) remaining t := by
      simp [matchBack]
    rw [hstep]
    cases hfind : remaining.find? (fun orig => lowers orig = lowers (it.username.getD [])) with
    | none =>
      have hnone : ∀ x ∈ remaining, ¬ (lowers x = lowers (it.username.getD [])) := by
        intro x hx
        have := List.find?_eq_none.mp hfind x hx
        simpa using this
      rw [ih res remaining u hinj]
      constructor
      · rintro (h | ⟨hu, x, hx, he⟩)
        · exact Or.inl h
        · exact Or.inr ⟨hu, x, List.mem_cons_of_mem _ hx, he⟩
      · rintro (h | ⟨hu, x, hx, he⟩)
        · exact Or.inl h
        · rcases List.mem_cons.mp hx with h1 | hx1
          · subst h1
            exact absurd he.symm (hnone u hu)
          · exact Or.inr ⟨hu, x, hx1, he⟩
    | some orig =>
      have horig_mem : orig ∈ remaining := List.mem_of_find?_eq_some hfind
      have horig_eq : lowers orig = lowers (it.username.getD []) := by
        have := List.find?_some hfind
        simpa using this
      rw [ih _ remaining u hinj]
      rw [dlookup_dinsert]
      by_cases hou : orig = u
      · subst hou
        rw [if_pos rfl]
        constructor
        · intro _
          exact Or.inr ⟨horig_mem, it, List.mem_cons_self _ _, horig_eq.symm⟩
        · intro _
          exact Or.inl rfl
      · rw [if_neg hou]
        constructor
        · rintro (h | ⟨hu, x, hx, he⟩)
          · exact Or.inl h
          · exact Or.inr ⟨hu, x, List.mem_cons_of_mem _ hx, he⟩
        · rintro (h | ⟨hu, x, hx, he⟩)
          · exact Or.inl h
          · rcases List.mem_cons.mp hx with h1 | hx1
            · subst h1
              exact absurd (hinj orig horig_mem u hu (horig_eq.trans he)) hou
            · exact Or.inr ⟨hu, x, hx1, he⟩

theorem ig_fallback_phase (l : List Str) :
    ∀ (acc : List (Str × IgData) × List Str),
      (∀ u ∈ l, fallbackIg (lowers u) = none) →
      l.foldl (fun (acc : List (Str × IgData) × List Str) u =>
        match fallbackIg (lowers u) with
        | some d => (dinsert acc.1 u d, acc.2)
        | none => (acc.1, acc.2 ++ [u])) acc = (acc.1, acc.2 ++ l) := by
  induction l with
  | nil => intro acc _; simp
  | cons x t ih =>
    intro acc h
    simp only [List.foldl_cons, h x (List.mem_cons_self x t)]
    rw [ih _ (fun u hu => h u (List.mem_cons_of_mem _ hu))]
    simp

/-- C5 counterexample: a non-empty batch consisting of the canned-fallback
identifier `"zuck"` issues ZERO upstream calls (the claim requires exactly
one per non-empty batch), and the returned mapping contains the key
`"zuck"` even though no upstream response item echoes it. -/
theorem c5_batch_counterexample :
    batch_scrape_instagram true (some []) [zuckStr] = ([(zuckStr, zuckIg)], 0) := by
  decide

/-- C5 (amended): for every non-empty request list whose identifiers are
outside the canned-fallback table and pairwise distinct modulo case, with a
token configured and the actor call returning `items`, the batched
instagram fetch issues exactly one upstream call and returns a mapping
whose keys are exactly the requested identifiers whose lowercase form is
echoed in some response item's `username` field. -/
theorem c5_batch_amended (usernames : List Str) (items : List IgData)
    (hne : ¬ usernames = [])
    (hfb : ∀ u ∈ usernames, fallbackIg (lowers u) = none)
    (hinj : ∀ a ∈ usernames, ∀ b ∈ usernames, lowers a = lowers b → a = b) :
    (batch_scrape_instagram true (some items) usernames).2 = 1 ∧
    (∀ u, (dlookup (batch_scrape_instagram true (some items) usernames).1 u).isSome ↔
      (u ∈ usernames ∧ ∃ it ∈ items, lowers (it.username.getD []) = lowers u)) := by
  have hphase := ig_fallback_phase usernames ([], []) hfb
  have heq : batch_scrape_instagram true (some items) usernames
      = (matchBack [] usernames items, 1) := by
    unfold batch_scrape_instagram
    rw [if_neg hne]
    rw [hphase]
    simp [hne]
  rw [heq]
  refine ⟨rfl, ?_⟩
  intro u
  have h := matchBack_isSome items [] usernames u hinj
  simpa [dlookup] using h

theorem c5_batch_amended_witness :
    (batch_scrape_instagram true (some [c5item]) [userA]).2 = 1 ∧
    (dlookup (batch_scrape_instagram true (some [c5item]) [userA]).1 userA).isSome := by
  have h := c5_batch_amended [userA] [c5item] (by decide) (by decide) (by decide)
  exact ⟨h.1, (h.2 userA).mpr ⟨by decide, c5item, by decide, by decide⟩⟩

/-! ## C6: aggregation -/

theorem append_ne_nil_left (a x : Str) (h : ¬ a = []) : ¬ a ++ x = [] := by
  intro hc
  rw [List.append_eq_nil] at hc
  exact h hc.1

theorem joinSep_ne_nil (sep : Str) (s : Str) (rest : List Str) (h : ¬ s = []) :
    ¬ joinSep sep (s :: rest) = [] := by
  cases rest with
  | nil => simpa [joinSep] using h
  | cons y t =>
    intro hc
    rw [joinSep] at hc
    simp [List.append_eq_nil] at hc
    exact h hc.1

theorem ite_parts_ne (parts : List Str) (msg hdr nl : Str)
    (hmsg : ¬ msg = []) (hhdr : ¬ hdr = []) :
    ¬ (if parts = [] then msg else hdr ++ joinSep nl parts) = [] := by
  by_cases hp : parts = []
  · rw [if_pos hp]; exact hmsg
  · rw [if_neg hp]; exact append_ne_nil_left _ _ hhdr

theorem normTwitter_ne_nil (raw : List TwItem) : ¬ normTwitter raw = [] := by
  unfold normTwitter
  split
  · decide
  · split
    · apply append_ne_nil_left
      decide
    · apply ite_parts_ne
      · decide
      · decide

theorem normInstagram_ne_nil (d : IgData) : ¬ normInstagram d = [] := by
  unfold normInstagram
  split
  · decide
  · apply ite_parts_ne
    · decide
    · decide

theorem normLinkedin_ne_nil (d : LiData) : ¬ normLinkedin d = [] := by
  unfold normLinkedin
  split
  · decide
  · apply ite_parts_ne
    · decide
    · decide

theorem normFacebook_ne_nil (d : FbData) : ¬ normFacebook d = [] := by
  unfold normFacebook
  split
  · decide
  · apply ite_parts_ne
    · decide
    · decide

theorem sectionsOf_mem_ne (pd : PlatformData) :
    ∀ x ∈ sectionsOf pd, ¬ x = [] := by
  intro x hx
  unfold sectionsOf at hx
  simp only [List.mem_append] at hx
  rcases hx with ((h | h) | h) | h
  · cases htw : pd.twitter with
    | none => rw [htw] at h; simp at h
    | some l =>
      rw [htw] at h
      by_cases hl : l = [] <;> simp [hl] at h
      rw [h]
      exact normTwitter_ne_nil l
  · cases hig : pd.instagram with
    | none => rw [hig] at h; simp at h
    | some d =>
      rw [hig] at h
      by_cases hd : d.truthy <;> simp [hd] at h
      rw [h]
      exact normInstagram_ne_nil d
  · cases hli : pd.linkedin with
    | none => rw [hli] at h; simp at h
    | some d =>
      rw [hli] at h
      by_cases hd : d.truthy <;> simp [hd] at h
      rw [h]
      exact normLinkedin_ne_nil d
  · cases hfb : pd.facebook with
    | none => rw [hfb] at h; simp at h
    | some d =>
      rw [hfb] at h
      by_cases hd : d.truthy <;> simp [hd] at h
      rw [h]
      exact normFacebook_ne_nil d

/-- C6: `aggregate` concatenates the present truthy sections in the fixed
order twitter, instagram, linkedin, facebook with the `====` delimiter;
with zero sections it returns the canonical non-empty "no data available"
sentinel; its output is never the empty string. -/
theorem c6_aggregate (pd : PlatformData) :
    ¬ aggregate pd = [] ∧
    (sectionsOf pd = [] → aggregate pd = noDataMsg) ∧
    (¬ sectionsOf pd = [] → aggregate pd = joinSep aggDelim (sectionsOf pd)) := by
  refine ⟨?_, ?_, ?_⟩
  · by_cases hs : sectionsOf pd = []
    · unfold aggregate
      rw [if_pos hs]
      decide
    · unfold aggregate
      rw [if_neg hs]
      cases hsec : sectionsOf pd with
      | nil => exact absurd hsec hs
      | cons s rest =>
        apply joinSep_ne_nil
        exact sectionsOf_mem_ne pd s (by rw [hsec]; exact List.mem_cons_self _ _)
  · intro hs
    unfold aggregate
    rw [if_pos hs]
  · intro hs
    unfold aggregate
    rw [if_neg hs]

theorem c6_aggregate_witness :
    aggregate pdEmpty = noDataMsg ∧ ¬ aggregate pdTw = [] := by
  have h1 := (c6_aggregate pdEmpty).2.1 (by decide)
  have h2 := (c6_aggregate pdTw).1
  exact ⟨h1, h2⟩

/-! ## C9: unknown bucket and task construction -/

theorem count5 (l : List PlatformInfo) :
    (l.filter (fun i => i.platform = Platform.twitter)).length
    + (l.filter (fun i => i.platform = Platform.instagram)).length
    + (l.filter (fun i => i.platform = Platform.linkedin)).length
    + (l.filter (fun i => i.platform = Platform.facebook)).length
    + (l.filter (fun i => i.platform = Platform.unknown)).length = l.length := by
  induction l with
  | nil => rfl
  | cons i t ih =>
    cases hp : i.platform <;>
      simp [List.filter_cons, hp, List.length_cons] <;> omega

/-- C9: every input appears in exactly one bucket (the five bucket sizes sum
to the input count); an input matching no pattern lands in the `unknown`
bucket with an empty canonical identifier and its trimmed original input;
and `unknown` entries are excluded from scrape-task construction, so the
task count plus the unknown-bucket size equals the input count. -/
theorem c9_unknown_bucket (urls : List Str) :
    (∀ url ∈ urls, (detect_platform url).platform = Platform.unknown →
      (detect_platform url).username = [] ∧ (detect_platform url).original_url = pyStrip url) ∧
    ((route_urls urls .twitter).length + (route_urls urls .instagram).length
      + (route_urls urls .linkedin).length + (route_urls urls .facebook).length
      + (route_urls urls .unknown).length = urls.length) ∧
    (∀ pq ∈ scrape_tasks urls, ¬ pq.1 = Platform.unknown) ∧
    ((scrape_tasks urls).length + (route_urls urls .unknown).length = urls.length) := by
  have hcount : (route_urls urls .twitter).length + (route_urls urls .instagram).length
      + (route_urls urls .linkedin).length + (route_urls urls .facebook).length
      + (route_urls urls .unknown).length = urls.length := by
    unfold route_urls
    have h := count5 (urls.map detect_platform)
    simpa using h
  refine ⟨?_, hcount, ?_, ?_⟩
  · intro url _ hunk
    revert hunk
    simp only [detect_platform]
    cases h1 : twitterMatch (pyStrip url)
    · cases h2 : instagramMatch (pyStrip url)
      · cases h3 : linkedinMatch (pyStrip url)
        · cases h4 : facebookMatch (pyStrip url)
          · intro _; exact ⟨rfl, rfl⟩
          · intro hk; simp at hk
        · intro hk; simp at hk
      · intro hk; simp at hk
    · intro hk; simp at hk
  · intro pq hpq
    unfold scrape_tasks at hpq
    simp only [List.mem_flatMap, List.mem_map] at hpq
    obtain ⟨p, hp, i, hi, heq⟩ := hpq
    rw [← heq]
    simp only [List.mem_cons, List.not_mem_nil, or_false] at hp
    rcases hp with h | h | h | h <;> (subst h; simp)
  · unfold scrape_tasks
    simp only [List.flatMap_cons, List.flatMap_nil, List.append_nil,
      List.length_append, List.length_map]
    omega

theorem c9_unknown_bucket_witness :
    (detect_platform urlBad).username = [] ∧
    (scrape_tasks [urlTw1, urlBad]).length + (route_urls [urlTw1, urlBad] .unknown).length = 2 := by
  have h := c9_unknown_bucket [urlTw1, urlBad]
  refine ⟨?_, ?_⟩
  · exact (h.1 urlBad (by decide) (by decide)).1
  · simpa using h.2.2.2

/-! ## C10: truncation of free-text fields -/

theorem joinSep_length_ge (sep : Str) (l : List Str) (s : Str) (h : s ∈ l) :
    s.length ≤ (joinSep sep l).length := by
  induction l with
  | nil => cases h
  | cons x t ih =>
    cases t with
    | nil =>
      rcases List.mem_cons.mp h with h1 | h1
      · subst h1
        simp [joinSep]
      · cases h1
    | cons y tt =>
      rw [joinSep]
      rcases List.mem_cons.mp h with h1 | h1
      · subst h1
        simp only [List.length_append]
        omega
      · have := ih h1
        simp only [List.length_append]
        omega

theorem normTwitter_profile (p : TwItem) (rest : List TwItem)
    (h : (p.screen_name.isSome || p.description.isSome) = true) :
    normTwitter (p :: rest)
      = "TWITTER PROFILE:\n".toList ++ joinSep ("\n".toList) (twProfileParts p) := by
  unfold normTwitter
  dsimp only
  rw [if_pos h]

/-- C10 counterexample: a twitter profile whose bio has 2000 characters is
rendered by `normalize_twitter` with the full `"Bio: " ++ bio` part kept
verbatim, so the rendered output has at least 2000 characters — the bio is
not truncated to any fixed per-field maximum (every truncation constant in
the module is at most 1000). -/
theorem c10_truncation_counterexample :
    2000 ≤ (normTwitter [bioProfile]).length ∧ longBio.length = 2000 := by
  constructor
  · have hb : ("Bio: ".toList ++ longBio) ∈ twProfileParts bioProfile := by
      unfold twProfileParts
      simp only [show bioProfile.description = some longBio from rfl, Option.getD_some]
      apply List.mem_append_left
      apply List.mem_append_left
      apply List.mem_append_left
      exact List.mem_cons_of_mem _ (List.mem_cons_self _ _)
    have h1 := joinSep_length_ge ("\n".toList) (twProfileParts bioProfile) _ hb
    rw [normTwitter_profile bioProfile [] (by decide)]
    have hlen : longBio.length = 2000 := by
      unfold longBio
      simp only [List.length_replicate]
    have hlb : ("Bio: ".toList ++ longBio).length = ("Bio: ".toList : Str).length + 2000 := by
      simp only [List.length_append, hlen]
    simp only [List.length_append]
    omega
  · unfold longBio
    simp only [List.length_replicate]

/-- C10 (amended): only some free-text fields are truncated, and whitespace
normalization precedes truncation only for linkedin post bodies: instagram
captions are cut to 500 characters (without whitespace normalization),
the linkedin summary is cut to 1000, linkedin post bodies are
whitespace-normalized and, when the original text exceeds 300 characters,
the *normalized* text is cut to 300 plus an ellipsis; twitter bios are
rendered untruncated. -/
theorem c10_truncation_amended :
    (∀ (p : TwItem) (b : Str), p.description = some b →
      ("Bio: ".toList ++ b) ∈ twProfileParts p) ∧
    (∀ (posts : List IgPost) (s : Str), s ∈ igCaptions posts → s.length ≤ 500) ∧
    (∀ text : Str, text.length > 300 →
      liPostBody text = (joinWords text).take 300 ++ "...".toList ∧
        (liPostBody text).length ≤ 303) ∧
    (∀ text : Str, text.length ≤ 300 → liPostBody text = joinWords text) ∧
    (∀ s : Str, (liAboutPart s).length ≤ 1007) := by
  refine ⟨?_, ?_, ?_, ?_, ?_⟩
  · intro p b h
    unfold twProfileParts
    simp only [h, Option.getD_some]
    apply List.mem_append_left
    apply List.mem_append_left
    apply List.mem_append_left
    exact List.mem_cons_of_mem _ (List.mem_cons_self _ _)
  · intro posts s hs
    unfold igCaptions at hs
    rw [List.mem_filterMap] at hs
    obtain ⟨p, hp, he⟩ := hs
    by_cases hc : igCaption p = []
    · rw [if_pos hc] at he
      simp at he
    · rw [if_neg hc] at he
      have hse : s = (igCaption p).take 500 := (Option.some.inj he).symm
      rw [hse]
      have := List.length_take_le 500 (igCaption p)
      omega
  · intro text h
    unfold liPostBody
    rw [if_pos h]
    refine ⟨rfl, ?_⟩
    have h1 := List.length_take_le 300 (joinWords text)
    simp only [List.length_append]
    have h2 : ("...".toList : Str).length = 3 := by decide
    omega
  · intro text h
    unfold liPostBody
    rw [if_neg (by omega)]
  · intro s
    unfold liAboutPart
    have h1 := List.length_take_le 1000 s
    simp only [List.length_append]
    have h2 : ("About: ".toList : Str).length = 7 := by decide
    omega

theorem c10_truncation_amended_witness :
    ("Bio: ".toList ++ longBio) ∈ twProfileParts bioProfile ∧
    (liAboutPart longBio).length ≤ 1007 := by
  have h := c10_truncation_amended
  exact ⟨h.1 bioProfile longBio rfl, h.2.2.2.2 longBio⟩

/-! ## C7 (amended): casing and suffix behaviour of the router -/

theorem isWs_low (c : Char) : isWs (low c) = isWs c := by
  unfold low
  split <;> rfl

theorem ws_enum (ch : Char) (h : isWs ch = true) :
    ch = ' ' ∨ ch = '\t' ∨ ch = '\n' ∨ ch = '\x0d' ∨ ch = '\x0b' ∨ ch = '\x0c' := by
  unfold isWs at h
  simp only [Bool.or_eq_true, decide_eq_true_eq] at h
  tauto

theorem ws_not_cls (ch : Char) (h : isWs ch = true) :
    twCls ch = false ∧ igCls ch = false ∧ liCls ch = false ∧ fbCls ch = false ∧
      isDigitCh ch = false := by
  rcases ws_enum ch h with rfl | rfl | rfl | rfl | rfl | rfl <;>
    exact ⟨by decide, by decide, by decide, by decide, by decide⟩

theorem not_ws_of_cls_true (ch : Char) (cls : Char → Bool)
    (hcl : isWs ch = true → cls ch = false) (hc : cls ch = true) : isWs ch = false := by
  by_cases hws : isWs ch = true
  · rw [hcl hws] at hc
    exact absurd hc (by decide)
  · simpa using hws

theorem not_isWs_of_lowers {s lit : Str} (h : lowers s = lit)
    (hlit : ∀ c ∈ lit, isWs c = false) : ∀ c ∈ s, isWs c = false := by
  intro c hc
  have hmem : low c ∈ lit := by
    rw [← h]
    exact List.mem_map_of_mem low hc
  rw [← isWs_low c]
  exact hlit (low c) hmem

theorem dropWhile_eq_self_of (p : Char → Bool) (s : Str) (h : ∀ c ∈ s, p c = false) :
    s.dropWhile p = s := by
  cases s with
  | nil => rfl
  | cons c t =>
    exact List.dropWhile_cons_of_neg (by simp [h c (List.mem_cons_self c t)])

theorem pyStrip_eq_self (s : Str) (h : ∀ c ∈ s, isWs c = false) : pyStrip s = s := by
  unfold pyStrip
  rw [dropWhile_eq_self_of _ _ h]
  rw [dropWhile_eq_self_of _ _ (fun c hc => h c (List.mem_reverse.mp hc))]
  exact List.reverse_reverse s

theorem spci_pos (lit p s : Str) (h : lowers p = lit) :
    stripPrefixCI lit (p ++ s) = some s := by
  have hl : p.length = lit.length := by
    rw [← h]
    simp [lowers]
  unfold stripPrefixCI
  rw [← hl, List.take_left, List.drop_left, if_pos h]

theorem spci_ne_head (y : Char) (ys : Str) (x : Char) (xs : Str) (h : ¬ low x = y) :
    stripPrefixCI (y :: ys) (x :: xs) = none := by
  unfold stripPrefixCI
  apply if_neg
  intro hc
  rw [show (x :: xs).take (y :: ys).length = x :: xs.take ys.length from by
    simp [List.length_cons]] at hc
  rw [show lowers (x :: xs.take ys.length) = low x :: lowers (xs.take ys.length) from rfl] at hc
  injection hc with h1 _
  exact h h1

theorem spci_dom_ne (dh : Char) (dt : Str) (ch : Char) (c' rest : Str)
    (hne : ¬ low ch = dh) :
    stripPrefixCI (dh :: dt) ((ch :: c') ++ rest) = none := by
  simp only [List.cons_append]
  exact spci_ne_head dh dt ch (c' ++ rest) hne

theorem afterWww (a b rest : Str) (ha : lowers a = litHttps) (hb : lowers b = litWww) :
    stripWww (stripScheme (a ++ (b ++ rest))) = rest := by
  unfold stripScheme stripWww
  rw [spci_pos litHttps a (b ++ rest) ha]
  dsimp only
  rw [spci_pos litWww b rest hb]

theorem takeWhile_append_all (cls : Char → Bool) (u t : Str)
    (hcls : ∀ ch ∈ u, cls ch = true)
    (ht : ∀ ch, t.head? = some ch → cls ch = false) :
    (u ++ t).takeWhile cls = u := by
  induction u with
  | nil =>
    cases t with
    | nil => rfl
    | cons c r =>
      simp only [List.nil_append]
      exact List.takeWhile_cons_of_neg (by simp [ht c rfl])
  | cons c u' ih =>
    simp only [List.cons_append]
    rw [List.takeWhile_cons_of_pos (by simp [hcls c (List.mem_cons_self c u')])]
    rw [ih (fun ch hch => hcls ch (List.mem_cons_of_mem _ hch))]

theorem matchUser_pos (cls : Char → Bool) (u t : Str) (hu : ¬ u = [])
    (hcls : ∀ ch ∈ u, cls ch = true)
    (hhead : ∀ ch, t.head? = some ch → cls ch = false)
    (htail : tailMatch t = true) :
    matchUser cls (u ++ t) = some u := by
  unfold matchUser
  simp only [takeWhile_append_all cls u t hcls hhead]
  rw [if_neg hu]
  rw [List.drop_left u t]
  rw [if_pos htail]

theorem sfx_head_not_cls (cls : Char → Bool) (hslash : cls '/' = false) (t : Str)
    (ht : SfxOk t) : ∀ ch, t.head? = some ch → cls ch = false := by
  intro ch hch
  rcases ht with h0 | ⟨r, h0, _⟩ <;> subst h0
  · simp at hch
  · simp only [List.head?_cons, Option.some.injEq] at hch
    rw [← hch]
    exact hslash

theorem sfx_tailMatch (t : Str) (ht : SfxOk t) : tailMatch t = true := by
  rcases ht with h0 | ⟨r, h0, hr⟩ <;> subst h0
  · rfl
  · have hnl : noNL r = true := by
      unfold noNL
      rw [List.all_eq_true]
      intro c hc
      have hws := hr c hc
      simp only [decide_eq_true_eq]
      intro hceq
      rw [hceq] at hws
      exact absurd hws (by decide)
    rw [show tailMatch ('/' :: r) = dotStarDollar r from rfl]
    unfold dotStarDollar
    rw [hnl]
    rfl

theorem sfx_nonws (t : Str) (ht : SfxOk t) : ∀ ch ∈ t, isWs ch = false := by
  rcases ht with h0 | ⟨r, h0, hr⟩ <;> subst h0
  · intro ch hch; cases hch
  · intro ch hch
    rcases List.mem_cons.mp hch with h1 | h1
    · subst h1; decide
    · exact hr ch h1

theorem cons_of_lowers (c : Str) (dh : Char) (dt : Str) (hc : lowers c = dh :: dt) :
    ∃ ch c', c = ch :: c' ∧ low ch = dh ∧ lowers c' = dt := by
  cases c with
  | nil => exact absurd hc (by simp [lowers])
  | cons ch c' =>
    rw [show lowers (ch :: c') = low ch :: lowers c' from rfl] at hc
    injection hc with h1 h2
    exact ⟨ch, c', rfl, h1, h2⟩

theorem twitterMatch_built (a b c u t : Str) (ha : lowers a = litHttps)
    (hb : lowers b = litWww) (hc : lowers c = litTwitter)
    (hu : ¬ u = []) (hcls : ∀ ch ∈ u, twCls ch = true) (ht : SfxOk t) :
    twitterMatch (a ++ b ++ c ++ u ++ t) = some u := by
  unfold twitterMatch
  rw [show a ++ b ++ c ++ u ++ t = a ++ (b ++ (c ++ (u ++ t))) from by
    simp [List.append_assoc]]
  rw [afterWww a b _ ha hb]
  dsimp only
  rw [spci_pos litTwitter c (u ++ t) hc]
  dsimp only
  exact matchUser_pos twCls u t hu hcls
    (sfx_head_not_cls twCls (by decide) t ht) (sfx_tailMatch t ht)

theorem twitterMatch_built_x (a b c u t : Str) (ha : lowers a = litHttps)
    (hb : lowers b = litWww) (hc : lowers c = litX)
    (hu : ¬ u = []) (hcls : ∀ ch ∈ u, twCls ch = true) (ht : SfxOk t) :
    twitterMatch (a ++ b ++ c ++ u ++ t) = some u := by
  obtain ⟨ch, c2, hcc, hlow, _⟩ := cons_of_lowers c 'x' (".com/".toList) (by rw [hc]; decide)
  have hcdom : lowers (ch :: c2) = litX := by rw [← hcc]; exact hc
  unfold twitterMatch
  rw [show a ++ b ++ c ++ u ++ t = a ++ (b ++ (c ++ (u ++ t))) from by
    simp [List.append_assoc]]
  rw [afterWww a b _ ha hb]
  dsimp only
  rw [hcc]
  rw [show litTwitter = 't' :: "witter.com/".toList from by decide]
  rw [spci_dom_ne 't' _ ch c2 (u ++ t) (by rw [hlow]; decide)]
  dsimp only
  rw [spci_pos litX (ch :: c2) (u ++ t) hcdom]
  dsimp only
  exact matchUser_pos twCls u t hu hcls
    (sfx_head_not_cls twCls (by decide) t ht) (sfx_tailMatch t ht)

theorem twitterMatch_fail (a b c u t : Str) (ha : lowers a = litHttps)
    (hb : lowers b = litWww) (ch : Char) (c2 : Str) (hcc : c = ch :: c2)
    (hne_t : ¬ low ch = 't') (hne_x : ¬ low ch = 'x') :
    twitterMatch (a ++ b ++ c ++ u ++ t) = none := by
  unfold twitterMatch
  rw [show a ++ b ++ c ++ u ++ t = a ++ (b ++ (c ++ (u ++ t))) from by
    simp [List.append_assoc]]
  rw [afterWww a b _ ha hb]
  dsimp only
  rw [hcc]
  rw [show litTwitter = 't' :: "witter.com/".toList from by decide]
  rw [spci_dom_ne 't' _ ch c2 (u ++ t) hne_t]
  dsimp only
  rw [show litX = 'x' :: ".com/".toList from by decide]
  rw [spci_dom_ne 'x' _ ch c2 (u ++ t) hne_x]

theorem instagramMatch_built (a b c u t : Str) (ha : lowers a = litHttps)
    (hb : lowers b = litWww) (hc : lowers c = litInstagram)
    (hu : ¬ u = []) (hcls : ∀ ch ∈ u, igCls ch = true) (ht : SfxOk t) :
    instagramMatch (a ++ b ++ c ++ u ++ t) = some u := by
  unfold instagramMatch
  rw [show a ++ b ++ c ++ u ++ t = a ++ (b ++ (c ++ (u ++ t))) from by
    simp [List.append_assoc]]
  rw [afterWww a b _ ha hb]
  dsimp only
  rw [spci_pos litInstagram c (u ++ t) hc]
  dsimp only
  exact matchUser_pos igCls u t hu hcls
    (sfx_head_not_cls igCls (by decide) t ht) (sfx_tailMatch t ht)

theorem instagramMatch_fail (a b c u t : Str) (ha : lowers a = litHttps)
    (hb : lowers b = litWww) (ch : Char) (c2 : Str) (hcc : c = ch :: c2)
    (hne : ¬ low ch = 'i') :
    instagramMatch (a ++ b ++ c ++ u ++ t) = none := by
  unfold instagramMatch
  rw [show a ++ b ++ c ++ u ++ t = a ++ (b ++ (c ++ (u ++ t))) from by
    simp [List.append_assoc]]
  rw [afterWww a b _ ha hb]
  dsimp only
  rw [hcc]
  rw [show litInstagram = 'i' :: "nstagram.com/".toList from by decide]
  rw [spci_dom_ne 'i' _ ch c2 (u ++ t) hne]

theorem linkedinMatch_built (a b c u t : Str) (ha : lowers a = litHttps)
    (hb : lowers b = litWww) (hc : lowers c = litLinkedin)
    (hu : ¬ u = []) (hcls : ∀ ch ∈ u, liCls ch = true) (ht : SfxOk t) :
    linkedinMatch (a ++ b ++ c ++ u ++ t) = some u := by
  unfold linkedinMatch
  rw [show a ++ b ++ c ++ u ++ t = a ++ (b ++ (c ++ (u ++ t))) from by
    simp [List.append_assoc]]
  rw [afterWww a b _ ha hb]
  dsimp only
  rw [spci_pos litLinkedin c (u ++ t) hc]
  dsimp only
  exact matchUser_pos liCls u t hu hcls
    (sfx_head_not_cls liCls (by decide) t ht) (sfx_tailMatch t ht)

theorem linkedinMatch_fail (a b c u t : Str) (ha : lowers a = litHttps)
    (hb : lowers b = litWww) (ch : Char) (c2 : Str) (hcc : c = ch :: c2)
    (hne : ¬ low ch = 'l') :
    linkedinMatch (a ++ b ++ c ++ u ++ t) = none := by
  unfold linkedinMatch
  rw [show a ++ b ++ c ++ u ++ t = a ++ (b ++ (c ++ (u ++ t))) from by
    simp [List.append_assoc]]
  rw [afterWww a b _ ha hb]
  dsimp only
  rw [hcc]
  rw [show litLinkedin = 'l' :: "inkedin.com/in/".toList from by decide]
  rw [spci_dom_ne 'l' _ ch c2 (u ++ t) hne]

theorem facebookMatch_built_id (a b c1 c2 u t : Str) (ha : lowers a = litHttps)
    (hb : lowers b = litWww) (hc1 : lowers c1 = litFacebook)
    (hc2 : lowers c2 = litProfilePhp)
    (hu : ¬ u = []) (hcls : ∀ ch ∈ u, isDigitCh ch = true) (ht : SfxOk t) :
    facebookMatch (a ++ b ++ c1 ++ c2 ++ u ++ t) = some u := by
  unfold facebookMatch
  rw [show a ++ b ++ c1 ++ c2 ++ u ++ t = a ++ (b ++ (c1 ++ (c2 ++ (u ++ t)))) from by
    simp [List.append_assoc]]
  rw [afterWww a b _ ha hb]
  dsimp only
  rw [spci_pos litFacebook c1 (c2 ++ (u ++ t)) hc1]
  dsimp only
  rw [spci_pos litProfilePhp c2 (u ++ t) hc2]
  dsimp only
  rw [matchUser_pos isDigitCh u t hu hcls
    (sfx_head_not_cls isDigitCh (by decide) t ht) (sfx_tailMatch t ht)]
  rfl

/-- C7 (amended): routing is a pure function of the input; for well-formed
URLs of each platform's shape, the detected platform and the extracted
canonical identifier are independent of the casing of the scheme, `www.`,
and domain portions and of an optional trailing path suffix — but the
canonical identifier is the username segment *as written* (its casing is
preserved, which is what falsifies the original claim). Facebook is covered
in its `profile.php?id=` capture shape. -/
theorem c7_route_amended (a b cdom u t : Str)
    (ha : lowers a = litHttps) (hb : lowers b = litWww) (hu : ¬ u = [])
    (ht : SfxOk t) :
    ((lowers cdom = litTwitter ∨ lowers cdom = litX) →
      (∀ ch ∈ u, twCls ch = true) →
      detect_platform (a ++ b ++ cdom ++ u ++ t)
        = ⟨.twitter, u, a ++ b ++ cdom ++ u ++ t⟩) ∧
    (lowers cdom = litInstagram → (∀ ch ∈ u, igCls ch = true) →
      detect_platform (a ++ b ++ cdom ++ u ++ t)
        = ⟨.instagram, u, a ++ b ++ cdom ++ u ++ t⟩) ∧
    (lowers cdom = litLinkedin → (∀ ch ∈ u, liCls ch = true) →
      detect_platform (a ++ b ++ cdom ++ u ++ t)
        = ⟨.linkedin, u, a ++ b ++ cdom ++ u ++ t⟩) ∧
    (lowers cdom = litFacebook ++ litProfilePhp →
      (∀ ch ∈ u, isDigitCh ch = true) →
      detect_platform (a ++ b ++ cdom ++ u ++ t)
        = ⟨.facebook, u, a ++ b ++ cdom ++ u ++ t⟩) := by
  have hlitA : ∀ c ∈ litHttps, isWs c = false := by decide
  have hlitB : ∀ c ∈ litWww, isWs c = false := by decide
  refine ⟨?_, ?_, ?_, ?_⟩
  · intro hc hcls
    have hnw : ∀ ch ∈ a ++ b ++ cdom ++ u ++ t, isWs ch = false := by
      intro ch hch
      simp only [List.append_assoc, List.mem_append] at hch
      rcases hch with h1 | h1 | h1 | h1 | h1
      · exact not_isWs_of_lowers ha hlitA ch h1
      · exact not_isWs_of_lowers hb hlitB ch h1
      · rcases hc with hc | hc
        · exact not_isWs_of_lowers hc (by decide) ch h1
        · exact not_isWs_of_lowers hc (by decide) ch h1
      · exact not_ws_of_cls_true ch twCls (fun hws => (ws_not_cls ch hws).1) (hcls ch h1)
      · exact sfx_nonws t ht ch h1
    simp only [detect_platform]
    rw [pyStrip_eq_self _ hnw]
    rcases hc with hc | hc
    · rw [twitterMatch_built a b cdom u t ha hb hc hu hcls ht]
    · rw [twitterMatch_built_x a b cdom u t ha hb hc hu hcls ht]
  · intro hc hcls
    have hnw : ∀ ch ∈ a ++ b ++ cdom ++ u ++ t, isWs ch = false := by
      intro ch hch
      simp only [List.append_assoc, List.mem_append] at hch
      rcases hch with h1 | h1 | h1 | h1 | h1
      · exact not_isWs_of_lowers ha hlitA ch h1
      · exact not_isWs_of_lowers hb hlitB ch h1
      · exact not_isWs_of_lowers hc (by decide) ch h1
      · exact not_ws_of_cls_true ch igCls (fun hws => (ws_not_cls ch hws).2.1) (hcls ch h1)
      · exact sfx_nonws t ht ch h1
    obtain ⟨ch, c', hcc, hlow, _⟩ := cons_of_lowers cdom 'i' ("nstagram.com/".toList)
      (by rw [hc]; decide)
    simp only [detect_platform]
    rw [pyStrip_eq_self _ hnw]
    rw [twitterMatch_fail a b cdom u t ha hb ch c' hcc
      (by rw [hlow]; decide) (by rw [hlow]; decide)]
    dsimp only
    rw [instagramMatch_built a b cdom u t ha hb hc hu hcls ht]
  · intro hc hcls
    have hnw : ∀ ch ∈ a ++ b ++ cdom ++ u ++ t, isWs ch = false := by
      intro ch hch
      simp only [List.append_assoc, List.mem_append] at hch
      rcases hch with h1 | h1 | h1 | h1 | h1
      · exact not_isWs_of_lowers ha hlitA ch h1
      · exact not_isWs_of_lowers hb hlitB ch h1
      · exact not_isWs_of_lowers hc (by decide) ch h1
      · exact not_ws_of_cls_true ch liCls (fun hws => (ws_not_cls ch hws).2.2.1) (hcls ch h1)
      · exact sfx_nonws t ht ch h1
    obtain ⟨ch, c', hcc, hlow, _⟩ := cons_of_lowers cdom 'l' ("inkedin.com/in/".toList)
      (by rw [hc]; decide)
    simp only [detect_platform]
    rw [pyStrip_eq_self _ hnw]
    rw [twitterMatch_fail a b cdom u t ha hb ch c' hcc
      (by rw [hlow]; decide) (by rw [hlow]; decide)]
    dsimp only
    rw [instagramMatch_fail a b cdom u t ha hb ch c' hcc (by rw [hlow]; decide)]
    dsimp only
    rw [linkedinMatch_built a b cdom u t ha hb hc hu hcls ht]
  · intro hc hcls
    have hnw : ∀ ch ∈ a ++ b ++ cdom ++ u ++ t, isWs ch = false := by
      intro ch hch
      simp only [List.append_assoc, List.mem_append] at hch
      rcases hch with h1 | h1 | h1 | h1 | h1
      · exact not_isWs_of_lowers ha hlitA ch h1
      · exact not_isWs_of_lowers hb hlitB ch h1
      · exact not_isWs_of_lowers hc (by decide) ch h1
      · exact not_ws_of_cls_true ch isDigitCh (fun hws => (ws_not_cls ch hws).2.2.2.2)
          (hcls ch h1)
      · exact sfx_nonws t ht ch h1
    obtain ⟨ch, c', hcc, hlow, _⟩ := cons_of_lowers cdom 'f'
      ("acebook.com/".toList ++ litProfilePhp) (by rw [hc]; decide)
    have hsplit : cdom = cdom.take litFacebook.length ++ cdom.drop litFacebook.length :=
      (List.take_append_drop _ cdom).symm
    have hlen : (lowers cdom).length = cdom.length := by simp [lowers]
    have hc1 : lowers (cdom.take litFacebook.length) = litFacebook := by
      rw [show lowers (cdom.take litFacebook.length)
          = (lowers cdom).take litFacebook.length from by simp [lowers, List.map_take]]
      rw [hc]
      exact List.take_left litFacebook litProfilePhp
    have hc2 : lowers (cdom.drop litFacebook.length) = litProfilePhp := by
      rw [show lowers (cdom.drop litFacebook.length)
          = (lowers cdom).drop litFacebook.length from by simp [lowers, List.map_drop]]
      rw [hc]
      exact List.drop_left litFacebook litProfilePhp
    simp only [detect_platform]
    rw [pyStrip_eq_self _ hnw]
    rw [twitterMatch_fail a b cdom u t ha hb ch c' hcc
      (by rw [hlow]; decide) (by rw [hlow]; decide)]
    dsimp only
    rw [instagramMatch_fail a b cdom u t ha hb ch c' hcc (by rw [hlow]; decide)]
    dsimp only
    rw [linkedinMatch_fail a b cdom u t ha hb ch c' hcc (by rw [hlow]; decide)]
    dsimp only
    have hshape : a ++ b ++ cdom ++ u ++ t
        = a ++ b ++ cdom.take litFacebook.length ++ cdom.drop litFacebook.length ++ u ++ t := by
      simp only [List.append_assoc]
      rw [← List.append_assoc (cdom.take litFacebook.length) (cdom.drop litFacebook.length)]
      rw [List.take_append_drop]
    rw [hshape]
    rw [facebookMatch_built_id a b _ _ u t ha hb hc1 hc2 hu hcls ht]

theorem c7_route_amended_witness :
    detect_platform (wA ++ wB ++ wDom ++ wUser ++ wSfx)
      = ⟨.twitter, wUser, wA ++ wB ++ wDom ++ wUser ++ wSfx⟩ := by
  have h := (c7_route_amended wA wB wDom wUser wSfx (by decide) (by decide) (by decide)
    (Or.inr ⟨wSfxR, by decide, by decide⟩)).1 (Or.inl (by decide)) (by decide)
  exact h

end Koyak
